import Mathlib

/-!
Verification development for the golulo CLI (github.com/tasiov/golulo).

The Go sources under cmd/golulo are shallowly embedded below.  External
effects (the Solana RPC node, the file system, the flexlend HTTP API, the
base64/JSON codecs of external libraries) are parameters of an `Env`
record; each embedded operation returns the list of external calls it made
(`Event`s, in order) together with its Go return value, so that call-order
and early-return properties of the source can be stated and proved.
Errors follow Go's `fmt.Errorf` discipline: a leaf message, or a message
wrapping an inner error (the `%w` verb).
-/

/-- Errors as produced by `fmt.Errorf`: either a plain message, or a message
wrapping an inner error (the `%w` verb). -/
inductive GoError where
  | msg (s : String)
  | wrap (s : String) (e : GoError)
deriving DecidableEq, Repr

/-- Commitment levels of the Solana RPC API (only the ones this program names). -/
inductive Commitment where
  | finalized
  | confirmed
  | processed
deriving DecidableEq, Repr

/-- Options of `rpc.SendTransactionWithOpts` as used by `SendTransaction`
(client.go lines 100-103). -/
structure TransactionOpts where
  skipPreflight : Bool
  preflightCommitment : Commitment
deriving DecidableEq, Repr

/-- Public keys, private keys, blockhashes and signatures are opaque to this
program; they are modelled as plain values.  A private key is the byte array
read from the keypair file (`solana.PrivateKey` is a byte slice). -/
abbrev PubKey := Nat

abbrev PrivKey := List Nat

abbrev Blockhash := Nat

abbrev Sig := Nat

/-- The message header of a Solana transaction (the fields client.go reads). -/
structure MessageHeader where
  numRequiredSignatures : Nat
  numReadonlySignedAccounts : Nat
  numReadonlyUnsignedAccounts : Nat
deriving DecidableEq, Repr

/-- The message of a Solana transaction: account keys, header and the
recent-blockhash field that `HandleB64Transactions` overwrites. -/
structure Message where
  header : MessageHeader
  accountKeys : List PubKey
  recentBlockhash : Blockhash
deriving DecidableEq, Repr

/-- A Solana transaction: one signature slot per required signer (slot `i`
belongs to `accountKeys[i]`; `none` is an empty slot, Go's zero signature)
plus the message. -/
structure Transaction where
  signatures : List (Option Sig)
  message : Message
deriving DecidableEq, Repr

/-- The required signers of a transaction's message:
`tx.Message.AccountKeys[:tx.Message.Header.NumRequiredSignatures]`. -/
def Message.signerKeys (m : Message) : List PubKey :=
  m.accountKeys.take m.header.numRequiredSignatures

/-- Go floats (float64 command-line amounts).  Finite values are carried
exactly as rationals; NaN and the two infinities are kept apart because Go
formats and compares them specially. -/
inductive GoFloat where
  | nan
  | inf (neg : Bool)
  | finite (v : ℚ)
deriving DecidableEq, Repr

/-- Go's `amount == 0` on a float64: true exactly for finite zero (NaN and
infinities compare unequal to zero). -/
def goFloatEqZero : GoFloat → Bool
  | .finite v => v = 0
  | _ => false

/-- Decimal digit characters for the integer formatter. -/
def digitChar : Nat → Char
  | 0 => '0'
  | 1 => '1'
  | 2 => '2'
  | 3 => '3'
  | 4 => '4'
  | 5 => '5'
  | 6 => '6'
  | 7 => '7'
  | 8 => '8'
  | _ => '9'

/-- Decimal rendering of a natural number (fuel-based; the fuel `n + 1`
always suffices since `n / 10 < n` for `n ≥ 10`). -/
def natCharsAux : Nat → Nat → List Char
  | 0, _ => []
  | fuel + 1, n =>
    if n < 10 then [digitChar n]
    else natCharsAux fuel (n / 10) ++ [digitChar (n % 10)]

/-- Decimal rendering of a natural number. -/
def natChars (n : Nat) : List Char :=
  natCharsAux (n + 1) n

/-- Decimal rendering of an integer (minus sign, then digits). -/
def intChars (i : Int) : List Char :=
  if i < 0 then '-' :: natChars i.natAbs else natChars i.natAbs

/-- Round a rational to the nearest integer, ties to even (the rounding Go's
`strconv` applies when formatting a float with zero fractional digits).
Written on the numerator and denominator directly: with `f` the floor of
`q`, the fractional remainder `q - f` is compared with one half by comparing
`2 * (num - f * den)` with `den`. -/
def roundHalfEven (q : ℚ) : ℤ :=
  let f := q.num.fdiv q.den
  let twice := 2 * (q.num - f * (q.den : ℤ))
  if twice < (q.den : ℤ) then f
  else if twice > (q.den : ℤ) then f + 1
  else if f % 2 = 0 then f else f + 1

/-- Go's `fmt.Sprintf("%.0f", x)` (deposit.go line 55, withdraw.go line 55):
fixed-point format with zero digits after the point, so no decimal point is
ever emitted; NaN and infinities print as `NaN`, `+Inf`, `-Inf`.  Modelled
from the documented behavior of Go's `fmt`/`strconv` (standard library, not
part of this repository's sources). -/
def sprintf_f0 : GoFloat → String
  | .nan => "NaN"
  | .inf true => "-Inf"
  | .inf false => "+Inf"
  | .finite v => String.mk (intChars (roundHalfEven v))

/-- The request body of the deposit API (deposit.go lines 21-25). -/
structure DepositRequest where
  owner : String
  mintAddress : String
  depositAmount : String
deriving DecidableEq, Repr

/-- The request body of the withdraw API (withdraw.go lines 20-25). -/
structure WithdrawRequest where
  owner : String
  mintAddress : String
  withdrawAmount : String
  withdrawAll : Bool
deriving DecidableEq, Repr

/-- A JSON-marshalled request body (`json.Marshal` of the request structs;
marshalling these structs cannot fail, so it is modelled as the identity on
the structured value). -/
inductive Body where
  | deposit (r : DepositRequest)
  | withdraw (r : WithdrawRequest)
deriving DecidableEq, Repr

/-- An outgoing HTTP request (`http.NewRequest` plus the `Header.Set` calls,
headers listed in the order the source sets them). -/
structure HttpRequest where
  method : String
  url : String
  body : Option Body
  headers : List (String × String)
deriving DecidableEq, Repr

/-- An HTTP response (the fields the source reads). -/
structure HttpResponse where
  statusCode : Nat
  body : String
deriving DecidableEq, Repr

/-- One record of the deposit API response (deposit.go lines 28-32). -/
structure TransactionMeta where
  transaction : String
  protocol : String
  totalDeposit : GoFloat
deriving DecidableEq, Repr

/-- The `data` object of the deposit API response (deposit.go lines 35-39). -/
structure DepositResponseData where
  transactionMeta : List TransactionMeta
deriving DecidableEq, Repr

/-- The deposit API response (deposit.go lines 35-39). -/
structure DepositResponse where
  data : DepositResponseData
deriving DecidableEq, Repr

/-- One record of the withdraw API response (withdraw.go lines 28-32). -/
structure WithdrawTransactionMeta where
  transaction : String
  protocol : String
  totalWithdraw : String
deriving DecidableEq, Repr

/-- The `data` object of the withdraw API response (withdraw.go lines 35-39). -/
structure WithdrawResponseData where
  transactionMeta : List WithdrawTransactionMeta
deriving DecidableEq, Repr

/-- The withdraw API response (withdraw.go lines 35-39). -/
structure WithdrawResponse where
  data : WithdrawResponseData
deriving DecidableEq, Repr

/-- Account settings of the account API response (account.go lines 15-20). -/
structure AccountSettings where
  owner : String
  allowedProtocols : String
  homebase : Option String
  minimumRate : GoFloat
deriving DecidableEq, Repr

/-- The `data` object of the account API response (account.go lines 23-30). -/
structure AccountData where
  totalValue : GoFloat
  interestEarned : GoFloat
  realtimeAPY : GoFloat
  settings : AccountSettings
deriving DecidableEq, Repr

/-- The account API response (account.go lines 23-30). -/
structure AccountResponse where
  data : AccountData
deriving DecidableEq, Repr

/-- An external call made by the program, recorded in order of occurrence. -/
inductive Event where
  | readFile (path : String)
  | httpDo (req : HttpRequest)
  | rpcGetLatestBlockhash (commitment : Commitment)
  | rpcSendTransaction (tx : Transaction) (opts : TransactionOpts)
  | decodeB64 (i : Nat)
  | deserialize (i : Nat)
  | sign (i : Nat)
deriving DecidableEq, Repr

/-- The configuration store (viper): each `viper.GetString` key the program
reads.  An unset key is the empty string, as in viper. -/
structure Config where
  keypair : String
  rpcUrl : String
  rpcApiKey : String
  luloApiKey : String
  priorityFee : String
deriving DecidableEq, Repr

/-- The external world: configuration plus the outcome of every external
call the program might make.  The oracles model the file system, the JSON
and base64 codecs of external libraries, ed25519 key derivation and signing,
the Solana RPC node, and the flexlend HTTP API. -/
structure Env where
  config : Config
  readFile : String → Except GoError String
  jsonToBytes : String → Except GoError (List Nat)
  derivePubKey : List Nat → PubKey
  pubKeyString : PubKey → String
  getLatestBlockhash : Except GoError Blockhash
  sendTransaction : Transaction → Except GoError Sig
  decodeBase64 : String → Except GoError (List Nat)
  txFromBytes : List Nat → Except GoError Transaction
  signWith : PrivKey → Message → Sig
  httpDo : HttpRequest → Except GoError HttpResponse
  decodeDepositResponse : String → Except GoError DepositResponse
  decodeWithdrawResponse : String → Except GoError WithdrawResponse
  decodeAccountResponse : String → Except GoError AccountResponse

/-- The client record (client.go lines 18-22); the RPC connection lives in
`Env`. -/
structure SolanaClient where
  publicKey : PubKey
  privateKey : PrivKey
deriving DecidableEq, Repr

/-- Whether an `Except` value is a success. -/
def exceptIsOk {ε α : Type} : Except ε α → Bool
  | .ok _ => true
  | .error _ => false

/-- NewSolanaClient (client.go lines 25-60): read the keypair path from
config, read and JSON-parse the keypair file into a byte array, cast it to a
private key and derive the public key, then check the RPC URL.  The decoded
byte array is used as-is: the source performs no validity check on it. -/
def NewSolanaClient (env : Env) : List Event × Except GoError SolanaClient :=
  if env.config.keypair = "" then ([], .error (.msg "keypair path not set in config"))
  else
    match env.readFile env.config.keypair with
    | .error e =>
      ([.readFile env.config.keypair], .error (.wrap "failed to read keypair file" e))
    | .ok contents =>
      match env.jsonToBytes contents with
      | .error e =>
        ([.readFile env.config.keypair], .error (.wrap "failed to parse keypair file" e))
      | .ok secretKey =>
        if env.config.rpcUrl = "" then
          ([.readFile env.config.keypair], .error (.msg "RPC URL not set in config"))
        else
          ([.readFile env.config.keypair],
            .ok { publicKey := env.derivePubKey secretKey, privateKey := secretKey })

/-- The private-key getter closure passed to the SDK's `tx.Sign` by
`SignTransaction` (client.go lines 89-94 and part_001 lines 85-90): the
private key for the client's own public key, `nil` for every other key. -/
def clientGetter (c : SolanaClient) : PubKey → Option PrivKey :=
  fun key => if key = c.publicKey then some c.privateKey else none

/-- Modelled from the spec: the solana-go SDK's `Transaction.Sign` (the SDK
is a dependency, not part of this repository's sources).  Per the SDK's
contract it returns an error when the key getter returns nil for some
required signer, leaving the transaction unchanged; otherwise it fills every
required signer's signature slot with a signature made from the getter's
key.  The spec describes the composed behavior: only the local key's slot is
ever filled and every other required-signer slot is left empty. -/
def Transaction.sdkSign (getter : PubKey → Option PrivKey)
    (signWith : PrivKey → Message → Sig) (tx : Transaction) :
    Transaction × Option GoError :=
  if tx.message.signerKeys.all (fun k => (getter k).isSome) then
    ({ tx with signatures :=
        tx.message.signerKeys.map (fun k => (getter k).map (fun p => signWith p tx.message)) },
      none)
  else (tx, some (.msg "signer key not found"))

/-- SignTransaction as in client.go lines 88-96: the result and error of
`tx.Sign` are discarded and the (possibly mutated) transaction is returned
with a nil error. -/
def SignTransaction (env : Env) (c : SolanaClient) (tx : Transaction) :
    Except GoError Transaction :=
  .ok (Transaction.sdkSign (clientGetter c) env.signWith tx).1

/-- SignTransaction as in src/unnamed/part_001 lines 84-97: identical to the
client.go version except that an error from `tx.Sign` is wrapped and
propagated, returning no transaction. -/
def SignTransactionAlt (env : Env) (c : SolanaClient) (tx : Transaction) :
    Except GoError Transaction :=
  match Transaction.sdkSign (clientGetter c) env.signWith tx with
  | (tx', none) => .ok tx'
  | (_, some e) => .error (.wrap "failed to sign transaction" e)

/-- The options every submission uses (client.go lines 100-103). -/
def sendOpts : TransactionOpts :=
  { skipPreflight := false, preflightCommitment := .finalized }

/-- SendTransaction (client.go lines 99-109): submit via
`SendTransactionWithOpts` with preflight enabled and finalized preflight
commitment; return the signature, or wrap the remote rejection. -/
def SendTransaction (env : Env) (tx : Transaction) : List Event × Except GoError Sig :=
  ([.rpcSendTransaction tx sendOpts],
    match env.sendTransaction tx with
    | .ok sig => .ok sig
    | .error e => .error (.wrap "failed to send transaction" e))

/-- The blockhash overwrite `tx.Message.RecentBlockhash = blockhash.Value.Blockhash`
(client.go line 152). -/
def setRecentBlockhash (tx : Transaction) (bh : Blockhash) : Transaction :=
  { tx with message := { tx.message with recentBlockhash := bh } }

/-- One iteration of the loop of HandleB64Transactions (client.go lines
137-181): base64-decode envelope `i`, deserialize it, overwrite its
recent-blockhash with `bh`, sign it with the client key, submit it.  Each
failure is wrapped and returned; note that the submit error is wrapped a
second time by the loop (lines 169-175 wrap the already-wrapped error of
`SendTransaction`). -/
def handleStep (env : Env) (c : SolanaClient) (bh : Blockhash) (i : Nat) (s : String) :
    List Event × Except GoError Sig :=
  match env.decodeBase64 s with
  | .error e => ([.decodeB64 i], .error (.wrap "failed to decode transaction" e))
  | .ok bytes =>
    match env.txFromBytes bytes with
    | .error e =>
      ([.decodeB64 i, .deserialize i], .error (.wrap "failed to deserialize transaction" e))
    | .ok tx0 =>
      match SignTransaction env c (setRecentBlockhash tx0 bh) with
      | .error e =>
        ([.decodeB64 i, .deserialize i, .sign i], .error (.wrap "failed to sign transaction" e))
      | .ok tx2 =>
        match SendTransaction env tx2 with
        | (sevs, .error e) =>
          ([.decodeB64 i, .deserialize i, .sign i] ++ sevs,
            .error (.wrap "failed to send transaction" e))
        | (sevs, .ok sig) => ([.decodeB64 i, .deserialize i, .sign i] ++ sevs, .ok sig)

/-- The loop of HandleB64Transactions (client.go lines 137-181): process the
envelopes in input order, returning the first error immediately. -/
def handleLoop (env : Env) (c : SolanaClient) (bh : Blockhash) :
    Nat → List String → List Event × Except GoError Unit
  | _, [] => ([], .ok ())
  | i, s :: rest =>
    match handleStep env c bh i s with
    | (evs, .error e) => (evs, .error e)
    | (evs, .ok _) =>
      (evs ++ (handleLoop env c bh (i + 1) rest).1, (handleLoop env c bh (i + 1) rest).2)

/-- HandleB64Transactions (client.go lines 129-184): fetch one finalized
blockhash before the loop, then process every envelope with it. -/
def HandleB64Transactions (env : Env) (c : SolanaClient) (b64_txs : List String) :
    List Event × Except GoError Unit :=
  match env.getLatestBlockhash with
  | .error e =>
    ([.rpcGetLatestBlockhash .finalized], .error (.wrap "failed to get latest blockhash" e))
  | .ok bh =>
    (.rpcGetLatestBlockhash .finalized :: (handleLoop env c bh 0 b64_txs).1,
      (handleLoop env c bh 0 b64_txs).2)

/-- Command-line flags of `deposit` (deposit.go lines 121-127; `amount`
defaults to 0, `mint` to the empty string). -/
structure DepositFlags where
  amount : GoFloat
  mint : String
deriving DecidableEq, Repr

/-- Command-line flags of `withdraw` (withdraw.go lines 123-127). -/
structure WithdrawFlags where
  amount : GoFloat
  mint : String
  withdrawAll : Bool
deriving DecidableEq, Repr

/-- The deposit request built by depositCmd (deposit.go lines 52-56). -/
def mkDepositRequest (owner : String) (fl : DepositFlags) : DepositRequest :=
  { owner := owner, mintAddress := fl.mint, depositAmount := sprintf_f0 fl.amount }

/-- The withdraw request built by withdrawCmd (withdraw.go lines 52-57). -/
def mkWithdrawRequest (owner : String) (fl : WithdrawFlags) : WithdrawRequest :=
  { owner := owner
    mintAddress := fl.mint
    withdrawAmount := sprintf_f0 fl.amount
    withdrawAll := fl.withdrawAll }

/-- The HTTP request depositCmd sends (deposit.go lines 64-83): POST to the
fixed endpoint with the priority-fee query parameter, the marshalled request
body, and the four headers in the order the source sets them. -/
def depositHttpRequest (env : Env) (client : SolanaClient) (fl : DepositFlags) : HttpRequest :=
  { method := "POST"
    url := "https://api.flexlend.fi/generate/account/deposit?priorityFee="
      ++ env.config.priorityFee
    body := some (Body.deposit (mkDepositRequest (env.pubKeyString client.publicKey) fl))
    headers := [("Accept", "application/json"), ("Content-Type", "application/json"),
      ("x-wallet-pubkey", env.pubKeyString client.publicKey),
      ("x-api-key", env.config.luloApiKey)] }

/-- The HTTP request withdrawCmd sends (withdraw.go lines 66-85). -/
def withdrawHttpRequest (env : Env) (client : SolanaClient) (fl : WithdrawFlags) : HttpRequest :=
  { method := "POST"
    url := "https://api.flexlend.fi/generate/account/withdraw?priorityFee="
      ++ env.config.priorityFee
    body := some (Body.withdraw (mkWithdrawRequest (env.pubKeyString client.publicKey) fl))
    headers := [("Accept", "application/json"), ("Content-Type", "application/json"),
      ("x-wallet-pubkey", env.pubKeyString client.publicKey),
      ("x-api-key", env.config.luloApiKey)] }

/-- The HTTP request accountCmd sends (account.go lines 45-62). -/
def accountHttpRequest (env : Env) (client : SolanaClient) : HttpRequest :=
  { method := "GET"
    url := "https://api.flexlend.fi/account"
    body := none
    headers := [("Accept", "application/json"),
      ("x-wallet-pubkey", env.pubKeyString client.publicKey),
      ("x-api-key", env.config.luloApiKey)] }

/-- depositCmd.RunE (deposit.go lines 44-118): create the client, POST the
deposit request, require status 200 exactly, decode the response, then hand
the envelope strings to HandleB64Transactions.  No check of the API key is
made. -/
def depositCommand (env : Env) (fl : DepositFlags) : List Event × Except GoError Unit :=
  match NewSolanaClient env with
  | (evs, .error e) => (evs, .error (.wrap "failed to create client" e))
  | (evs, .ok client) =>
    match env.httpDo (depositHttpRequest env client fl) with
    | .error e =>
      (evs ++ [.httpDo (depositHttpRequest env client fl)],
        .error (.wrap "failed to make request" e))
    | .ok resp =>
      if resp.statusCode ≠ 200 then
        (evs ++ [.httpDo (depositHttpRequest env client fl)],
          .error (.msg ("unexpected status code: " ++ toString resp.statusCode)))
      else
        match env.decodeDepositResponse resp.body with
        | .error e =>
          (evs ++ [.httpDo (depositHttpRequest env client fl)],
            .error (.wrap "failed to decode response" e))
        | .ok response =>
          match HandleB64Transactions env client
              (response.data.transactionMeta.map (fun m => m.transaction)) with
          | (hevs, .error e) =>
            (evs ++ [.httpDo (depositHttpRequest env client fl)] ++ hevs,
              .error (.wrap "failed to handle transactions" e))
          | (hevs, .ok _) =>
            (evs ++ [.httpDo (depositHttpRequest env client fl)] ++ hevs, .ok ())

/-- withdrawCmd.PreRunE (withdraw.go lines 133-138): require `--all` or a
nonzero amount. -/
def withdrawPreRunE (fl : WithdrawFlags) : Except GoError Unit :=
  if ¬fl.withdrawAll ∧ goFloatEqZero fl.amount then
    .error (.msg "either --amount or --all flag must be specified")
  else .ok ()

/-- withdrawCmd.RunE (withdraw.go lines 44-120): same shape as deposit, with
the withdraw request (amount string plus the withdraw-all flag). -/
def withdrawRunE (env : Env) (fl : WithdrawFlags) : List Event × Except GoError Unit :=
  match NewSolanaClient env with
  | (evs, .error e) => (evs, .error (.wrap "failed to create client" e))
  | (evs, .ok client) =>
    match env.httpDo (withdrawHttpRequest env client fl) with
    | .error e =>
      (evs ++ [.httpDo (withdrawHttpRequest env client fl)],
        .error (.wrap "failed to make request" e))
    | .ok resp =>
      if resp.statusCode ≠ 200 then
        (evs ++ [.httpDo (withdrawHttpRequest env client fl)],
          .error (.msg ("unexpected status code: " ++ toString resp.statusCode)))
      else
        match env.decodeWithdrawResponse resp.body with
        | .error e =>
          (evs ++ [.httpDo (withdrawHttpRequest env client fl)],
            .error (.wrap "failed to decode response" e))
        | .ok response =>
          match HandleB64Transactions env client
              (response.data.transactionMeta.map (fun m => m.transaction)) with
          | (hevs, .error e) =>
            (evs ++ [.httpDo (withdrawHttpRequest env client fl)] ++ hevs,
              .error (.wrap "failed to handle transactions" e))
          | (hevs, .ok _) =>
            (evs ++ [.httpDo (withdrawHttpRequest env client fl)] ++ hevs, .ok ())

/-- The withdraw command as cobra runs it: PreRunE first; RunE only if
validation passed. -/
def withdrawCommand (env : Env) (fl : WithdrawFlags) : List Event × Except GoError Unit :=
  match withdrawPreRunE fl with
  | .error e => ([], .error e)
  | .ok _ => withdrawRunE env fl

/-- accountCmd.RunE (account.go lines 35-108): create the client, then check
the API key and fail before `httpClient.Do` when it is empty (in the source
the check sits between building the request and sending it; no external call
happens in between), otherwise GET the account summary and decode it. -/
def accountCommand (env : Env) : List Event × Except GoError Unit :=
  match NewSolanaClient env with
  | (evs, .error e) => (evs, .error (.wrap "failed to create client" e))
  | (evs, .ok client) =>
    if env.config.luloApiKey = "" then
      (evs, .error (.msg "FLEXLEND_API_KEY environment variable not set"))
    else
      match env.httpDo (accountHttpRequest env client) with
      | .error e =>
        (evs ++ [.httpDo (accountHttpRequest env client)],
          .error (.wrap "failed to make request" e))
      | .ok resp =>
        if resp.statusCode ≠ 200 then
          (evs ++ [.httpDo (accountHttpRequest env client)],
            .error (.msg ("unexpected status code: " ++ toString resp.statusCode)))
        else
          match env.decodeAccountResponse resp.body with
          | .error e =>
            (evs ++ [.httpDo (accountHttpRequest env client)],
              .error (.wrap "failed to decode response" e))
          | .ok _response => (evs ++ [.httpDo (accountHttpRequest env client)], .ok ())


/-- Signing never changes the message (in particular the recent-blockhash
field): only signature slots are touched. -/
theorem sdkSign_message (g : PubKey → Option PrivKey) (w : PrivKey → Message → Sig)
    (tx : Transaction) : ((Transaction.sdkSign g w tx).1).message = tx.message := by
  unfold Transaction.sdkSign
  split <;> rfl

/-- The trace of NewSolanaClient consists of file reads only. -/
theorem newSolanaClient_events (env : Env) :
    ∀ ev ∈ (NewSolanaClient env).1, ∃ path, ev = Event.readFile path := by
  intro ev hev
  by_cases hk : env.config.keypair = ""
  · simp [NewSolanaClient, hk] at hev
  · cases hr : env.readFile env.config.keypair with
    | error e =>
      simp [NewSolanaClient, hk, hr] at hev
      exact ⟨_, hev⟩
    | ok contents =>
      cases hj : env.jsonToBytes contents with
      | error e =>
        simp [NewSolanaClient, hk, hr, hj] at hev
        exact ⟨_, hev⟩
      | ok secretKey =>
        by_cases hu : env.config.rpcUrl = ""
        · simp [NewSolanaClient, hk, hr, hj, hu] at hev
          exact ⟨_, hev⟩
        · simp [NewSolanaClient, hk, hr, hj, hu] at hev
          exact ⟨_, hev⟩

/-- Shape of the events a loop iteration can emit: decode, deserialize and
sign tagged with an index, and submissions whose transaction carries the
overwritten blockhash and the fixed submission options. -/
def stepShaped (bh : Blockhash) (ev : Event) : Prop :=
  (∃ i, ev = Event.decodeB64 i) ∨ (∃ i, ev = Event.deserialize i) ∨
    (∃ i, ev = Event.sign i) ∨
    (∃ tx, ev = Event.rpcSendTransaction tx sendOpts ∧ tx.message.recentBlockhash = bh)

/-- Complete case analysis of one loop iteration: it fails at decoding, or at
deserialization, or it reaches the submission of a transaction whose
recent-blockhash was overwritten with the fetched one. -/
theorem handleStep_char (env : Env) (c : SolanaClient) (bh : Blockhash) (i : Nat) (s : String) :
    (∃ e, handleStep env c bh i s = ([Event.decodeB64 i], Except.error e))
    ∨ (∃ e, handleStep env c bh i s
        = ([Event.decodeB64 i, Event.deserialize i], Except.error e))
    ∨ (∃ tx r, handleStep env c bh i s
        = ([Event.decodeB64 i, Event.deserialize i, Event.sign i,
            Event.rpcSendTransaction tx sendOpts], r)
        ∧ tx.message.recentBlockhash = bh) := by
  cases hdec : env.decodeBase64 s with
  | error e =>
    exact Or.inl ⟨GoError.wrap "failed to decode transaction" e, by simp [handleStep, hdec]⟩
  | ok bytes =>
    cases hdes : env.txFromBytes bytes with
    | error e =>
      exact Or.inr (Or.inl ⟨GoError.wrap "failed to deserialize transaction" e,
        by simp [handleStep, hdec, hdes]⟩)
    | ok tx0 =>
      refine Or.inr (Or.inr ?_)
      cases hsend : env.sendTransaction
          (Transaction.sdkSign (clientGetter c) env.signWith (setRecentBlockhash tx0 bh)).1 with
      | error e =>
        exact ⟨(Transaction.sdkSign (clientGetter c) env.signWith (setRecentBlockhash tx0 bh)).1,
          Except.error (.wrap "failed to send transaction" (.wrap "failed to send transaction" e)),
          by simp [handleStep, hdec, hdes, SignTransaction, SendTransaction, hsend],
          by rw [sdkSign_message]; rfl⟩
      | ok sig =>
        exact ⟨(Transaction.sdkSign (clientGetter c) env.signWith (setRecentBlockhash tx0 bh)).1,
          Except.ok sig,
          by simp [handleStep, hdec, hdes, SignTransaction, SendTransaction, hsend],
          by rw [sdkSign_message]; rfl⟩

/-- Every event of a loop iteration is step-shaped. -/
theorem handleStep_shape (env : Env) (c : SolanaClient) (bh : Blockhash) (i : Nat) (s : String) :
    ∀ ev ∈ (handleStep env c bh i s).1, stepShaped bh ev := by
  intro ev hev
  rcases handleStep_char env c bh i s with ⟨e, h⟩ | ⟨e, h⟩ | ⟨tx, r, h, hbh⟩ <;> rw [h] at hev
  · simp at hev
    exact Or.inl ⟨i, hev⟩
  · simp at hev
    rcases hev with h1 | h1
    · exact Or.inl ⟨i, h1⟩
    · exact Or.inr (Or.inl ⟨i, h1⟩)
  · simp at hev
    rcases hev with h1 | h1 | h1 | h1
    · exact Or.inl ⟨i, h1⟩
    · exact Or.inr (Or.inl ⟨i, h1⟩)
    · exact Or.inr (Or.inr (Or.inl ⟨i, h1⟩))
    · exact Or.inr (Or.inr (Or.inr ⟨tx, h1, hbh⟩))

/-- Every event of the loop is step-shaped. -/
theorem handleLoop_shape (env : Env) (c : SolanaClient) (bh : Blockhash) :
    ∀ (txs : List String) (i : Nat), ∀ ev ∈ (handleLoop env c bh i txs).1, stepShaped bh ev := by
  intro txs
  induction txs with
  | nil =>
    intro i ev hev
    simp [handleLoop] at hev
  | cons s rest ih =>
    intro i ev hev
    rcases hstep : handleStep env c bh i s with ⟨evs, r⟩
    cases r with
    | error e =>
      simp [handleLoop, hstep] at hev
      exact handleStep_shape env c bh i s ev (by rw [hstep]; exact hev)
    | ok v =>
      simp [handleLoop, hstep] at hev
      rcases hev with h1 | h1
      · exact handleStep_shape env c bh i s ev (by rw [hstep]; exact h1)
      · exact ih (i + 1) ev h1

/-- Every event of HandleB64Transactions is the single finalized blockhash
fetch or an event of the loop run with the fetched blockhash. -/
theorem handleB64_shape (env : Env) (c : SolanaClient) (txs : List String) :
    ∀ ev ∈ (HandleB64Transactions env c txs).1,
      ev = Event.rpcGetLatestBlockhash Commitment.finalized
        ∨ ∃ bh, env.getLatestBlockhash = Except.ok bh ∧ stepShaped bh ev := by
  intro ev hev
  cases h : env.getLatestBlockhash with
  | error e =>
    simp [HandleB64Transactions, h] at hev
    exact Or.inl hev
  | ok bh =>
    simp [HandleB64Transactions, h] at hev
    rcases hev with h1 | h1
    · exact Or.inl h1
    · exact Or.inr ⟨bh, rfl, handleLoop_shape env c bh txs 0 ev h1⟩

/-- Concatenation of the per-index event segments `f 0 ++ f 1 ++ ... ++ f (k-1)`. -/
def segs (f : Nat → List Event) : Nat → List Event
  | 0 => []
  | k + 1 => segs f k ++ f k

/-- Peeling the first segment off a concatenation of `k + 1` segments. -/
theorem cons_segs (f : Nat → List Event) :
    ∀ k, f 0 ++ segs (fun j => f (j + 1)) k = segs f (k + 1) := by
  intro k
  induction k with
  | zero => simp [segs]
  | succ k ih =>
    show f 0 ++ (segs (fun j => f (j + 1)) k ++ f (k + 1)) = segs f (k + 1) ++ f (k + 1)
    rw [← List.append_assoc, ih]

/-- Complete characterization of the loop of HandleB64Transactions, starting
at index `i0`: either every envelope's iteration succeeds and the trace is
the concatenation of all iteration traces in input order, or some iteration
`k` fails after all earlier ones succeeded, its error is returned, and the
trace ends with iteration `k`'s events — nothing after index `k` is
processed. -/
theorem handleLoop_char (env : Env) (c : SolanaClient) (bh : Blockhash) :
    ∀ (txs : List String) (i0 : Nat),
      ((∀ j, j < txs.length → exceptIsOk (handleStep env c bh (i0 + j) (txs.getD j "")).2 = true)
        ∧ handleLoop env c bh i0 txs
          = (segs (fun j => (handleStep env c bh (i0 + j) (txs.getD j "")).1) txs.length,
              Except.ok ()))
      ∨ (∃ k, k < txs.length
          ∧ (∀ j, j < k → exceptIsOk (handleStep env c bh (i0 + j) (txs.getD j "")).2 = true)
          ∧ ∃ e, (handleStep env c bh (i0 + k) (txs.getD k "")).2 = Except.error e
            ∧ handleLoop env c bh i0 txs
              = (segs (fun j => (handleStep env c bh (i0 + j) (txs.getD j "")).1) k
                  ++ (handleStep env c bh (i0 + k) (txs.getD k "")).1, Except.error e)) := by
  intro txs
  induction txs with
  | nil =>
    intro i0
    left
    constructor
    · intro j hj
      simp at hj
    · simp [handleLoop, segs]
  | cons s rest ih =>
    intro i0
    rcases hstep : handleStep env c bh i0 s with ⟨evs, r⟩
    cases r with
    | error e =>
      right
      refine ⟨0, by simp, by simp, e, ?_, ?_⟩
      · simp only [List.getD_cons_zero, Nat.add_zero]
        rw [hstep]
      · simp only [List.getD_cons_zero, Nat.add_zero, segs, List.nil_append]
        rw [hstep]
        simp [handleLoop, hstep]
    | ok v =>
      rcases ih (i0 + 1) with ⟨hall, heq⟩ | ⟨k, hk, hpre, e, herr, heq⟩
      · left
        constructor
        · intro j hj
          cases j with
          | zero =>
            simp only [List.getD_cons_zero, Nat.add_zero]
            rw [hstep]
            rfl
          | succ j =>
            simp only [List.getD_cons_succ]
            have : i0 + (j + 1) = i0 + 1 + j := by omega
            rw [this]
            exact hall j (by simpa using hj)
        · have hshift : (fun j => (handleStep env c bh (i0 + (j + 1))
              ((s :: rest).getD (j + 1) "")).1)
              = fun j => (handleStep env c bh (i0 + 1 + j) (rest.getD j "")).1 := by
            funext j
            have : i0 + (j + 1) = i0 + 1 + j := by omega
            rw [this, List.getD_cons_succ]
          simp only [handleLoop, hstep, heq, List.length_cons]
          rw [← cons_segs]
          simp only [List.getD_cons_zero, Nat.add_zero, hstep, hshift]
      · right
        refine ⟨k + 1, by simpa using hk, ?_, e, ?_, ?_⟩
        · intro j hj
          cases j with
          | zero =>
            simp only [List.getD_cons_zero, Nat.add_zero]
            rw [hstep]
            rfl
          | succ j =>
            simp only [List.getD_cons_succ]
            have : i0 + (j + 1) = i0 + 1 + j := by omega
            rw [this]
            exact hpre j (by omega)
        · simp only [List.getD_cons_succ]
          have : i0 + (k + 1) = i0 + 1 + k := by omega
          rw [this]
          exact herr
        · have hshift : (fun j => (handleStep env c bh (i0 + (j + 1))
              ((s :: rest).getD (j + 1) "")).1)
              = fun j => (handleStep env c bh (i0 + 1 + j) (rest.getD j "")).1 := by
            funext j
            have : i0 + (j + 1) = i0 + 1 + j := by omega
            rw [this, List.getD_cons_succ]
          simp only [handleLoop, hstep, heq, List.getD_cons_succ]
          have hidx : i0 + (k + 1) = i0 + 1 + k := by omega
          rw [hidx, ← cons_segs]
          simp only [List.getD_cons_zero, Nat.add_zero, hstep, hshift, List.append_assoc]

/-- A digit character is never a decimal point. -/
theorem digitChar_ne_dot (d : Nat) : digitChar d ≠ '.' := by
  unfold digitChar
  split <;> decide

/-- No character of the natural-number rendering is a decimal point. -/
theorem natCharsAux_ne_dot : ∀ fuel n, ∀ c ∈ natCharsAux fuel n, c ≠ '.' := by
  intro fuel
  induction fuel with
  | zero =>
    intro n c hc
    simp [natCharsAux] at hc
  | succ fuel ih =>
    intro n c hc
    simp only [natCharsAux] at hc
    split at hc
    · simp at hc
      rw [hc]
      exact digitChar_ne_dot n
    · simp at hc
      rcases hc with h | h
      · exact ih _ c h
      · rw [h]
        exact digitChar_ne_dot (n % 10)

/-- No character of the integer rendering is a decimal point. -/
theorem intChars_ne_dot (i : Int) : ∀ c ∈ intChars i, c ≠ '.' := by
  intro c hc
  unfold intChars at hc
  split at hc
  · simp at hc
    rcases hc with h | h
    · rw [h]; decide
    · exact natCharsAux_ne_dot _ _ c h
  · exact natCharsAux_ne_dot _ _ c hc

/-- The text produced by the amount formatter never contains a decimal point. -/
theorem sprintf_f0_no_dot (f : GoFloat) : '.' ∉ (sprintf_f0 f).data := by
  cases f with
  | nan => decide
  | inf b => cases b <;> decide
  | finite v =>
    intro hc
    exact intChars_ne_dot (roundHalfEven v) '.' hc rfl

/-- The getter supplies a key exactly for the client's own public key. -/
theorem clientGetter_isSome (c : SolanaClient) (k : PubKey) :
    (clientGetter c k).isSome = true ↔ k = c.publicKey := by
  unfold clientGetter
  split <;> simp [*]

/-- If the client.go SignTransaction produced `tx'` from an unsigned
transaction, then every filled slot of `tx'` belongs to the client's own
public key (every other required-signer slot is left empty). -/
theorem signTransaction_filled_only_own (env : Env) (c : SolanaClient) (tx tx' : Transaction)
    (hsign : SignTransaction env c tx = Except.ok tx')
    (hempty : ∀ o ∈ tx.signatures, o = none) :
    ∀ (j : Nat) (sig : Sig), tx'.signatures[j]? = some (some sig) →
      tx.message.signerKeys[j]? = some c.publicKey := by
  intro j sig hslot
  have htx' : tx' = (Transaction.sdkSign (clientGetter c) env.signWith tx).1 := by
    have := hsign
    unfold SignTransaction at this
    exact (Except.ok.injEq _ _).mp this.symm
  rw [htx'] at hslot
  unfold Transaction.sdkSign at hslot
  by_cases hall : tx.message.signerKeys.all (fun k => (clientGetter c k).isSome) = true
  · rw [if_pos hall] at hslot
    simp only [List.getElem?_map] at hslot
    cases hk : tx.message.signerKeys[j]? with
    | none => rw [hk] at hslot; simp at hslot
    | some k =>
      rw [hk] at hslot
      simp only [Option.map_some'] at hslot
      have hksome : (clientGetter c k).isSome = true := by
        cases hg : clientGetter c k with
        | none => rw [hg] at hslot; simp at hslot
        | some p => simp [hg]
      rw [(clientGetter_isSome c k).mp hksome]
  · rw [if_neg hall] at hslot
    have hmem : some sig ∈ tx.signatures := List.getElem?_mem hslot
    exact absurd (hempty _ hmem) (by simp)

/-- If every required signer is the client's own key, client.go's
SignTransaction fills every slot. -/
theorem signTransaction_all_own_filled (env : Env) (c : SolanaClient) (tx tx' : Transaction)
    (hown : ∀ k ∈ tx.message.signerKeys, k = c.publicKey)
    (hsign : SignTransaction env c tx = Except.ok tx') :
    tx'.signatures
      = tx.message.signerKeys.map (fun _ => some (env.signWith c.privateKey tx.message)) := by
  have htx' : tx' = (Transaction.sdkSign (clientGetter c) env.signWith tx).1 := by
    have := hsign
    unfold SignTransaction at this
    exact (Except.ok.injEq _ _).mp this.symm
  have hall : tx.message.signerKeys.all (fun k => (clientGetter c k).isSome) = true := by
    rw [List.all_eq_true]
    intro k hk
    exact (clientGetter_isSome c k).mpr (hown k hk)
  rw [htx']
  unfold Transaction.sdkSign
  rw [if_pos hall]
  refine List.map_congr_left ?_
  intro k hk
  rw [hown k hk]
  simp [clientGetter]

/-- Whether an event is a blockhash fetch. -/
def isBlockhashFetch : Event → Bool
  | .rpcGetLatestBlockhash _ => true
  | _ => false

/-- A step-shaped event is never a blockhash fetch and never an HTTP call or
file read. -/
theorem stepShaped_cases (bh : Blockhash) (ev : Event) (h : stepShaped bh ev) :
    isBlockhashFetch ev = false
      ∧ (∀ req, ev ≠ Event.httpDo req) ∧ (∀ path, ev ≠ Event.readFile path) := by
  rcases h with ⟨i, h1⟩ | ⟨i, h1⟩ | ⟨i, h1⟩ | ⟨tx, h1, _⟩ <;> rw [h1] <;>
    exact ⟨rfl, fun req h2 => Event.noConfusion h2, fun path h2 => Event.noConfusion h2⟩

/-- The loop of HandleB64Transactions never fetches a blockhash and never
makes an HTTP call. -/
theorem handleLoop_no_fetch (env : Env) (c : SolanaClient) (bh : Blockhash)
    (txs : List String) (i : Nat) :
    (handleLoop env c bh i txs).1.filter (fun ev => isBlockhashFetch ev) = [] := by
  rw [List.filter_eq_nil_iff]
  intro ev hev
  simp only [Bool.not_eq_true]
  exact (stepShaped_cases bh ev (handleLoop_shape env c bh txs i ev hev)).1

/-- HandleB64Transactions makes no HTTP call. -/
theorem handleB64_no_httpDo (env : Env) (c : SolanaClient) (txs : List String) :
    ∀ req, Event.httpDo req ∉ (HandleB64Transactions env c txs).1 := by
  intro req hreq
  rcases handleB64_shape env c txs _ hreq with h | ⟨bh, _, hs⟩
  · exact Event.noConfusion h
  · exact (stepShaped_cases bh _ hs).2.1 req rfl

/-- Every HTTP call of the deposit command is the deposit request built for
the successfully created client. -/
theorem depositCommand_httpDo (env : Env) (fl : DepositFlags) :
    ∀ req, Event.httpDo req ∈ (depositCommand env fl).1 →
      ∃ client, (NewSolanaClient env).2 = Except.ok client
        ∧ req = depositHttpRequest env client fl := by
  intro req hreq
  rcases hP : NewSolanaClient env with ⟨evs, r⟩
  have hevs : ∀ ev ∈ evs, ∃ path, ev = Event.readFile path := by
    intro ev hev
    exact newSolanaClient_events env ev (by rw [hP]; exact hev)
  cases r with
  | error e =>
    simp [depositCommand, hP] at hreq
    rcases hevs _ hreq with ⟨path, hpath⟩
    exact absurd hpath (by simp)
  | ok client =>
    refine ⟨client, by simp [hP], ?_⟩
    cases hdo : env.httpDo (depositHttpRequest env client fl) with
    | error e =>
      simp [depositCommand, hP, hdo] at hreq
      rcases hreq with h | h
      · rcases hevs _ h with ⟨path, hpath⟩
        exact absurd hpath (by simp)
      · exact h
    | ok resp =>
      by_cases hst : resp.statusCode = 200
      · cases hdecR : env.decodeDepositResponse resp.body with
        | error e =>
          simp [depositCommand, hP, hdo, hst, hdecR] at hreq
          rcases hreq with h | h
          · rcases hevs _ h with ⟨path, hpath⟩
            exact absurd hpath (by simp)
          · exact h
        | ok response =>
          rcases hH : HandleB64Transactions env client
              (response.data.transactionMeta.map (fun m => m.transaction)) with ⟨hevs2, r2⟩
          have hnohttp : Event.httpDo req ∉ hevs2 := by
            intro hmem
            exact handleB64_no_httpDo env client
              (response.data.transactionMeta.map (fun m => m.transaction)) req
              (by rw [hH]; exact hmem)
          cases r2 with
          | error e =>
            simp [depositCommand, hP, hdo, hst, hdecR, hH] at hreq
            rcases hreq with h | h | h
            · rcases hevs _ h with ⟨path, hpath⟩
              exact absurd hpath (by simp)
            · exact h
            · exact absurd h hnohttp
          | ok v =>
            simp [depositCommand, hP, hdo, hst, hdecR, hH] at hreq
            rcases hreq with h | h | h
            · rcases hevs _ h with ⟨path, hpath⟩
              exact absurd hpath (by simp)
            · exact h
            · exact absurd h hnohttp
      · simp [depositCommand, hP, hdo, hst] at hreq
        rcases hreq with h | h
        · rcases hevs _ h with ⟨path, hpath⟩
          exact absurd hpath (by simp)
        · exact h

/-- Every HTTP call of the withdraw command body is the withdraw request
built for the successfully created client. -/
theorem withdrawRunE_httpDo (env : Env) (fl : WithdrawFlags) :
    ∀ req, Event.httpDo req ∈ (withdrawRunE env fl).1 →
      ∃ client, (NewSolanaClient env).2 = Except.ok client
        ∧ req = withdrawHttpRequest env client fl := by
  intro req hreq
  rcases hP : NewSolanaClient env with ⟨evs, r⟩
  have hevs : ∀ ev ∈ evs, ∃ path, ev = Event.readFile path := by
    intro ev hev
    exact newSolanaClient_events env ev (by rw [hP]; exact hev)
  cases r with
  | error e =>
    simp [withdrawRunE, hP] at hreq
    rcases hevs _ hreq with ⟨path, hpath⟩
    exact absurd hpath (by simp)
  | ok client =>
    refine ⟨client, by simp [hP], ?_⟩
    cases hdo : env.httpDo (withdrawHttpRequest env client fl) with
    | error e =>
      simp [withdrawRunE, hP, hdo] at hreq
      rcases hreq with h | h
      · rcases hevs _ h with ⟨path, hpath⟩
        exact absurd hpath (by simp)
      · exact h
    | ok resp =>
      by_cases hst : resp.statusCode = 200
      · cases hdecR : env.decodeWithdrawResponse resp.body with
        | error e =>
          simp [withdrawRunE, hP, hdo, hst, hdecR] at hreq
          rcases hreq with h | h
          · rcases hevs _ h with ⟨path, hpath⟩
            exact absurd hpath (by simp)
          · exact h
        | ok response =>
          rcases hH : HandleB64Transactions env client
              (response.data.transactionMeta.map (fun m => m.transaction)) with ⟨hevs2, r2⟩
          have hnohttp : Event.httpDo req ∉ hevs2 := by
            intro hmem
            exact handleB64_no_httpDo env client
              (response.data.transactionMeta.map (fun m => m.transaction)) req
              (by rw [hH]; exact hmem)
          cases r2 with
          | error e =>
            simp [withdrawRunE, hP, hdo, hst, hdecR, hH] at hreq
            rcases hreq with h | h | h
            · rcases hevs _ h with ⟨path, hpath⟩
              exact absurd hpath (by simp)
            · exact h
            · exact absurd h hnohttp
          | ok v =>
            simp [withdrawRunE, hP, hdo, hst, hdecR, hH] at hreq
            rcases hreq with h | h | h
            · rcases hevs _ h with ⟨path, hpath⟩
              exact absurd hpath (by simp)
            · exact h
            · exact absurd h hnohttp
      · simp [withdrawRunE, hP, hdo, hst] at hreq
        rcases hreq with h | h
        · rcases hevs _ h with ⟨path, hpath⟩
          exact absurd hpath (by simp)
        · exact h

/-- Every HTTP call of the withdraw command is the withdraw request built
for the successfully created client. -/
theorem withdrawCommand_httpDo (env : Env) (fl : WithdrawFlags) :
    ∀ req, Event.httpDo req ∈ (withdrawCommand env fl).1 →
      ∃ client, (NewSolanaClient env).2 = Except.ok client
        ∧ req = withdrawHttpRequest env client fl := by
  intro req hreq
  cases hpre : withdrawPreRunE fl with
  | error e =>
    simp [withdrawCommand, hpre] at hreq
  | ok v =>
    exact withdrawRunE_httpDo env fl req (by simpa [withdrawCommand, hpre] using hreq)

/-- With an empty API key the account command makes no HTTP call, and if the
client was created it fails with exactly the missing-key error. -/
theorem accountCommand_empty_key (env : Env) (hkey : env.config.luloApiKey = "") :
    (∀ req, Event.httpDo req ∉ (accountCommand env).1)
    ∧ (∀ client, (NewSolanaClient env).2 = Except.ok client →
        (accountCommand env).2
          = Except.error (GoError.msg "FLEXLEND_API_KEY environment variable not set")) := by
  rcases hP : NewSolanaClient env with ⟨evs, r⟩
  have hevs : ∀ ev ∈ evs, ∃ path, ev = Event.readFile path := by
    intro ev hev
    exact newSolanaClient_events env ev (by rw [hP]; exact hev)
  cases r with
  | error e =>
    constructor
    · intro req hreq
      simp [accountCommand, hP] at hreq
      rcases hevs _ hreq with ⟨path, hpath⟩
      exact absurd hpath (by simp)
    · intro client hclient
      exact absurd hclient (by simp)
  | ok client =>
    constructor
    · intro req hreq
      simp [accountCommand, hP, hkey] at hreq
      rcases hevs _ hreq with ⟨path, hpath⟩
      exact absurd hpath (by simp)
    · intro client2 hclient
      simp [accountCommand, hP, hkey]

/-- A transaction whose only required signer is key 1 (the test client's own
key), with an empty signature slot. -/
def txOwn : Transaction :=
  { signatures := [none]
    message :=
      { header :=
          { numRequiredSignatures := 1
            numReadonlySignedAccounts := 0
            numReadonlyUnsignedAccounts := 0 }
        accountKeys := [1]
        recentBlockhash := 0 } }

/-- A transaction whose only required signer is key 2, which is not the test
client's key: its private key is unavailable to the getter. -/
def txForeign : Transaction :=
  { signatures := [none]
    message :=
      { header :=
          { numRequiredSignatures := 1
            numReadonlySignedAccounts := 0
            numReadonlyUnsignedAccounts := 0 }
        accountKeys := [2]
        recentBlockhash := 0 } }

/-- A fully populated configuration for the concrete test environment. -/
def cfgOK : Config :=
  { keypair := "kp"
    rpcUrl := "http://rpc"
    rpcApiKey := "r"
    luloApiKey := "L"
    priorityFee := "5" }

/-- A concrete account response for the test environment. -/
def accountResp0 : AccountResponse :=
  { data :=
      { totalValue := .finite 0
        interestEarned := .finite 0
        realtimeAPY := .finite 0
        settings :=
          { owner := "1"
            allowedProtocols := ""
            homebase := none
            minimumRate := .finite 0 } } }

/-- A concrete environment in which every external call succeeds: the
keypair file holds the byte array `[1, 2]`, key derivation yields public key
1, the blockhash fetch yields 7, submissions yield signature 9, the API
returns status 200 with an empty transaction list. -/
def envOK : Env :=
  { config := cfgOK
    readFile := fun _ => .ok "[1,2]"
    jsonToBytes := fun _ => .ok [1, 2]
    derivePubKey := fun _ => 1
    pubKeyString := fun k => toString k
    getLatestBlockhash := .ok 7
    sendTransaction := fun _ => .ok 9
    decodeBase64 := fun _ => .ok [0]
    txFromBytes := fun _ => .ok txOwn
    signWith := fun _ _ => 5
    httpDo := fun _ => .ok { statusCode := 200, body := "" }
    decodeDepositResponse := fun _ => .ok { data := { transactionMeta := [] } }
    decodeWithdrawResponse := fun _ => .ok { data := { transactionMeta := [] } }
    decodeAccountResponse := fun _ => .ok accountResp0 }

/-- The client `NewSolanaClient` builds in `envOK`. -/
def clientOK : SolanaClient :=
  { publicKey := 1, privateKey := [1, 2] }

/-- `envOK` with the lulo API key unset. -/
def envNoKey : Env :=
  { envOK with config := { cfgOK with luloApiKey := "" } }

/-- `envOK` with the external API answering status 201 (a 2xx status that is
not 200). -/
def env201 : Env :=
  { envOK with httpDo := fun _ => .ok { statusCode := 201, body := "" } }

/-- `envOK` with the external API answering status 500. -/
def env500 : Env :=
  { envOK with httpDo := fun _ => .ok { statusCode := 500, body := "" } }

/-- `envOK` with a keypair file whose JSON is a 35-byte array: well-formed
JSON, but not a valid ed25519 secret-key encoding (which is 64 bytes). -/
def env35 : Env :=
  { envOK with
    readFile := fun _ =>
      .ok "[0,0,0,0,0,0,0,0,0,0,0,0,0,0,0,0,0,0,0,0,0,0,0,0,0,0,0,0,0,0,0,0,0,0,0]"
    jsonToBytes := fun _ => .ok (List.replicate 35 0) }

/-- Concrete deposit flags: amount 5, mint M. -/
def flD : DepositFlags := { amount := .finite 5, mint := "M" }

/-- Concrete withdraw flags: amount 5, the all-flag unset. -/
def flW : WithdrawFlags := { amount := .finite 5, mint := "M", withdrawAll := false }

/-- Concrete withdraw flags: no amount (the flag default 0), the all-flag unset. -/
def flWnone : WithdrawFlags := { amount := .finite 0, mint := "M", withdrawAll := false }

/-- Concrete withdraw flags: amount 5 and the all-flag set. -/
def flWall : WithdrawFlags := { amount := .finite 5, mint := "M", withdrawAll := true }

/-- `envOK` with no keypair path configured. -/
def envNoKeypair : Env := { envOK with config := { cfgOK with keypair := "" } }

/-- `envOK` with an unreadable keypair file. -/
def envReadErr : Env :=
  { envOK with readFile := fun _ => .error (.msg "no such file") }

/-- `envOK` with a keypair file whose JSON does not decode into a byte array. -/
def envParseErr : Env :=
  { envOK with jsonToBytes := fun _ => .error (.msg "not an array") }

/-- `envOK` with no RPC URL configured. -/
def envNoRpc : Env := { envOK with config := { cfgOK with rpcUrl := "" } }

/-- `envOK` with the remote node rejecting every submission. -/
def envSendFail : Env :=
  { envOK with sendTransaction := fun _ => .error (.msg "insufficient funds") }

/-- C4: invoking withdraw with the all-flag unset and no amount (the flag
default 0) fails validation with the ValidationError message; the command
performs no external call at all — in particular the client is not
constructed (no file read) and no API call is made. -/
theorem c4_withdraw_missing_amount_validation (env : Env) (fl : WithdrawFlags)
    (hall : fl.withdrawAll = false) (hamt : fl.amount = GoFloat.finite 0) :
    withdrawCommand env fl
      = ([], Except.error (GoError.msg "either --amount or --all flag must be specified")) := by
  unfold withdrawCommand withdrawPreRunE
  rw [hall, hamt]
  simp [goFloatEqZero]

/-- Witness for C4 at a concrete environment and flags. -/
theorem c4_withdraw_missing_amount_validation_witness :
    withdrawCommand envOK flWnone
      = ([], Except.error (GoError.msg "either --amount or --all flag must be specified")) :=
  c4_withdraw_missing_amount_validation envOK flWnone rfl rfl

/-- C10: withdraw validation passes exactly when the all-flag is set or the
amount is nonzero; an explicit zero amount without the flag is rejected with
the very error an absent amount produces; with the flag set validation
passes, and every request the command sends carries both the formatted
amount string and the withdraw-all flag value. -/
theorem c10_withdraw_validation_boundary (env : Env) (fl : WithdrawFlags) :
    (withdrawPreRunE fl = Except.ok ()
        ↔ (fl.withdrawAll = true ∨ goFloatEqZero fl.amount = false))
    ∧ (fl.withdrawAll = false → goFloatEqZero fl.amount = true →
        withdrawPreRunE fl
          = Except.error (GoError.msg "either --amount or --all flag must be specified"))
    ∧ (fl.withdrawAll = true → withdrawPreRunE fl = Except.ok ())
    ∧ (∀ req, Event.httpDo req ∈ (withdrawCommand env fl).1 →
        ∃ o, req.body = some (Body.withdraw
          { owner := o, mintAddress := fl.mint, withdrawAmount := sprintf_f0 fl.amount,
            withdrawAll := fl.withdrawAll })) := by
  refine ⟨?_, ?_, ?_, ?_⟩
  · unfold withdrawPreRunE
    by_cases h1 : fl.withdrawAll = true <;> by_cases h2 : goFloatEqZero fl.amount = true <;>
      simp [h1, h2]
  · intro h1 h2
    unfold withdrawPreRunE
    simp [h1, h2]
  · intro h1
    unfold withdrawPreRunE
    simp [h1]
  · intro req hreq
    rcases withdrawCommand_httpDo env fl req hreq with ⟨client, _, hr⟩
    exact ⟨env.pubKeyString client.publicKey, by rw [hr]; rfl⟩

/-- Witness for C10 at concrete flags: both flags set passes and the sent
request carries amount string 5 and the all-flag; zero amount without the
flag is rejected. -/
theorem c10_withdraw_validation_boundary_witness :
    withdrawPreRunE flWall = Except.ok ()
    ∧ withdrawPreRunE flWnone
        = Except.error (GoError.msg "either --amount or --all flag must be specified")
    ∧ (∃ o, (withdrawHttpRequest envOK clientOK flWall).body = some (Body.withdraw
        { owner := o, mintAddress := flWall.mint, withdrawAmount := sprintf_f0 flWall.amount,
          withdrawAll := flWall.withdrawAll })) :=
  ⟨(c10_withdraw_validation_boundary envOK flWall).2.2.1 rfl,
   (c10_withdraw_validation_boundary envOK flWnone).2.1 rfl rfl,
   (c10_withdraw_validation_boundary envOK flWall).2.2.2
     (withdrawHttpRequest envOK clientOK flWall)
     (by exact List.Mem.tail _ (List.Mem.head _))⟩

/-- C9 counterexample: on a transaction with a required signer other than
the client's key, the SDK sign call fails; the client.go SignTransaction
discards that failure and returns the transaction with a nil error, while
the part_001 SignTransaction propagates it — the two versions disagree. -/
theorem c9_sign_versions_differ :
    SignTransaction envOK clientOK txForeign ≠ SignTransactionAlt envOK clientOK txForeign := by
  intro h
  have h1 : SignTransaction envOK clientOK txForeign = Except.ok txForeign := rfl
  have h2 : SignTransactionAlt envOK clientOK txForeign
      = Except.error (GoError.wrap "failed to sign transaction"
          (GoError.msg "signer key not found")) := rfl
  rw [h1, h2] at h
  exact Except.noConfusion h

/-- C9 amended: the two SignTransaction versions agree exactly on the
transactions for which the underlying SDK sign call succeeds; whenever it
fails they differ (client.go returns the transaction with a nil error,
part_001 returns the wrapped error). -/
theorem c9_sign_versions_agree_iff (env : Env) (c : SolanaClient) (tx : Transaction) :
    SignTransaction env c tx = SignTransactionAlt env c tx
      ↔ (Transaction.sdkSign (clientGetter c) env.signWith tx).2 = none := by
  unfold SignTransaction SignTransactionAlt
  rcases h : Transaction.sdkSign (clientGetter c) env.signWith tx with ⟨tx2, oe⟩
  cases oe with
  | none => simp
  | some e => simp

/-- Witness for C9's amended statement: on a transaction owned by the client
the versions agree. -/
theorem c9_sign_versions_agree_iff_witness :
    SignTransaction envOK clientOK txOwn = SignTransactionAlt envOK clientOK txOwn :=
  (c9_sign_versions_agree_iff envOK clientOK txOwn).mpr rfl

/-- C3 counterexample: a keypair file whose JSON decodes to a 35-byte array
— not a valid ed25519 secret-key encoding, which is 64 bytes — is accepted
without any error: NewSolanaClient returns a client built from the invalid
bytes instead of failing with a ParseError. -/
theorem c3_invalid_key_encoding_accepted :
    (NewSolanaClient env35).2
        = Except.ok { publicKey := 1, privateKey := List.replicate 35 0 }
    ∧ (List.replicate 35 (0 : Nat)).length ≠ 64 := by
  constructor
  · rfl
  · decide

/-- C3 amended: NewSolanaClient fails with a ConfigurationError when no
keypair path is configured, with a wrapped IOError when the file cannot be
read, with a wrapped ParseError when the JSON does not decode into a byte
array, and with a ConfigurationError when no RPC URL is configured; in each
failure case no client is returned.  The decoded byte array itself is never
validated: whatever byte array the JSON yields, a client is returned. -/
theorem c3_new_client_failure_modes (env : Env) :
    (env.config.keypair = "" →
      NewSolanaClient env = ([], Except.error (GoError.msg "keypair path not set in config")))
    ∧ (∀ e, env.config.keypair ≠ "" → env.readFile env.config.keypair = Except.error e →
        NewSolanaClient env = ([Event.readFile env.config.keypair],
          Except.error (GoError.wrap "failed to read keypair file" e)))
    ∧ (∀ s e, env.config.keypair ≠ "" → env.readFile env.config.keypair = Except.ok s →
        env.jsonToBytes s = Except.error e →
        NewSolanaClient env = ([Event.readFile env.config.keypair],
          Except.error (GoError.wrap "failed to parse keypair file" e)))
    ∧ (∀ s bytes, env.config.keypair ≠ "" → env.config.rpcUrl = "" →
        env.readFile env.config.keypair = Except.ok s → env.jsonToBytes s = Except.ok bytes →
        NewSolanaClient env = ([Event.readFile env.config.keypair],
          Except.error (GoError.msg "RPC URL not set in config")))
    ∧ (∀ s bytes, env.config.keypair ≠ "" → env.config.rpcUrl ≠ "" →
        env.readFile env.config.keypair = Except.ok s → env.jsonToBytes s = Except.ok bytes →
        NewSolanaClient env = ([Event.readFile env.config.keypair],
          Except.ok { publicKey := env.derivePubKey bytes, privateKey := bytes })) := by
  refine ⟨?_, ?_, ?_, ?_, ?_⟩
  · intro h
    simp [NewSolanaClient, h]
  · intro e h1 h2
    simp [NewSolanaClient, h1, h2]
  · intro s e h1 h2 h3
    simp [NewSolanaClient, h1, h2, h3]
  · intro s bytes h1 h2 h3 h4
    simp [NewSolanaClient, h1, h2, h3, h4]
  · intro s bytes h1 h2 h3 h4
    simp [NewSolanaClient, h1, h2, h3, h4]

/-- Witness for C3's amended statement: each failure mode at a concrete
environment, plus the success case. -/
theorem c3_new_client_failure_modes_witness :
    NewSolanaClient envNoKeypair
        = ([], Except.error (GoError.msg "keypair path not set in config"))
    ∧ NewSolanaClient envReadErr = ([Event.readFile "kp"],
        Except.error (GoError.wrap "failed to read keypair file" (GoError.msg "no such file")))
    ∧ NewSolanaClient envParseErr = ([Event.readFile "kp"],
        Except.error (GoError.wrap "failed to parse keypair file" (GoError.msg "not an array")))
    ∧ NewSolanaClient envNoRpc = ([Event.readFile "kp"],
        Except.error (GoError.msg "RPC URL not set in config"))
    ∧ NewSolanaClient envOK = ([Event.readFile "kp"], Except.ok clientOK) :=
  ⟨(c3_new_client_failure_modes envNoKeypair).1 rfl,
   (c3_new_client_failure_modes envReadErr).2.1 (GoError.msg "no such file") (by decide) rfl,
   (c3_new_client_failure_modes envParseErr).2.2.1 "[1,2]" (GoError.msg "not an array")
     (by decide) rfl rfl,
   (c3_new_client_failure_modes envNoRpc).2.2.2.1 "[1,2]" [1, 2] (by decide) rfl rfl rfl,
   (c3_new_client_failure_modes envOK).2.2.2.2 "[1,2]" [1, 2] (by decide) (by decide) rfl rfl⟩

/-- C2 counterexample: with an empty lulo-api-key the deposit command does
not fail with a ConfigurationError — it performs the network call (with an
empty x-api-key header) and completes successfully. -/
theorem c2_deposit_ignores_empty_key :
    envNoKey.config.luloApiKey = ""
    ∧ depositCommand envNoKey flD
      = ([Event.readFile "kp",
          Event.httpDo
            { method := "POST"
              url := "https://api.flexlend.fi/generate/account/deposit?priorityFee=5"
              body := some (Body.deposit
                { owner := "1", mintAddress := "M", depositAmount := "5" })
              headers := [("Accept", "application/json"),
                ("Content-Type", "application/json"),
                ("x-wallet-pubkey", "1"), ("x-api-key", "")] },
          Event.rpcGetLatestBlockhash Commitment.finalized], Except.ok ()) :=
  ⟨rfl, rfl⟩

/-- C2 amended: only the account command checks the API key — with an empty
lulo-api-key it makes no HTTP call and (when the client was created) fails
with exactly the missing-key error; the deposit and withdraw commands
perform no such check and send their request with the x-api-key header
carrying whatever the configuration holds, including the empty string. -/
theorem c2_api_key_check_only_account (env : Env) :
    (env.config.luloApiKey = "" →
      (∀ req, Event.httpDo req ∉ (accountCommand env).1)
      ∧ (∀ client, (NewSolanaClient env).2 = Except.ok client →
          (accountCommand env).2
            = Except.error (GoError.msg "FLEXLEND_API_KEY environment variable not set")))
    ∧ (∀ fl req, Event.httpDo req ∈ (depositCommand env fl).1 →
        ("x-api-key", env.config.luloApiKey) ∈ req.headers)
    ∧ (∀ fl req, Event.httpDo req ∈ (withdrawCommand env fl).1 →
        ("x-api-key", env.config.luloApiKey) ∈ req.headers) := by
  refine ⟨accountCommand_empty_key env, ?_, ?_⟩
  · intro fl req hreq
    rcases depositCommand_httpDo env fl req hreq with ⟨client, _, hr⟩
    rw [hr]
    simp [depositHttpRequest]
  · intro fl req hreq
    rcases withdrawCommand_httpDo env fl req hreq with ⟨client, _, hr⟩
    rw [hr]
    simp [withdrawHttpRequest]

/-- Witness for C2's amended statement at a concrete key-less environment. -/
theorem c2_api_key_check_only_account_witness :
    (accountCommand envNoKey).2
      = Except.error (GoError.msg "FLEXLEND_API_KEY environment variable not set")
    ∧ ("x-api-key", envNoKey.config.luloApiKey)
        ∈ (depositHttpRequest envNoKey clientOK flD).headers :=
  ⟨((c2_api_key_check_only_account envNoKey).1 rfl).2 clientOK rfl,
   (c2_api_key_check_only_account envNoKey).2.1 flD (depositHttpRequest envNoKey clientOK flD)
     (by exact List.Mem.tail _ (List.Mem.head _))⟩

/-- A trace made of file reads followed by one HTTP call contains no
decoding, signing or submission event. -/
theorem no_pipeline_events (evs : List Event) (R : HttpRequest)
    (hevs : ∀ ev ∈ evs, ∃ path, ev = Event.readFile path) :
    (∀ i, Event.decodeB64 i ∉ evs ++ [Event.httpDo R])
    ∧ (∀ i, Event.sign i ∉ evs ++ [Event.httpDo R])
    ∧ (∀ tx opts, Event.rpcSendTransaction tx opts ∉ evs ++ [Event.httpDo R]) := by
  refine ⟨?_, ?_, ?_⟩
  · intro i hmem
    simp at hmem
    rcases hevs _ hmem with ⟨path, hpath⟩
    exact Event.noConfusion hpath
  · intro i hmem
    simp at hmem
    rcases hevs _ hmem with ⟨path, hpath⟩
    exact Event.noConfusion hpath
  · intro tx opts hmem
    simp at hmem
    rcases hevs _ hmem with ⟨path, hpath⟩
    exact Event.noConfusion hpath

/-- C5 counterexample: status 201 is a 2xx status, yet the deposit command
fails with the status error — the source checks for status 200 exactly, not
for the 2xx range. -/
theorem c5_status_201_rejected :
    depositCommand env201 flD
      = ([Event.readFile "kp", Event.httpDo (depositHttpRequest env201 clientOK flD)],
         Except.error (GoError.msg "unexpected status code: 201"))
    ∧ (200 ≤ 201 ∧ 201 < 300) := by
  exact ⟨rfl, by decide⟩

/-- C5 amended: on any response status other than exactly 200 — including
2xx statuses like 201 — deposit and withdraw fail with a NetworkError
carrying the status, having performed no decoding, signing or submission;
status exactly 200 never produces that error. -/
theorem c5_non_200_rejected (env : Env) (fl : DepositFlags) (wfl : WithdrawFlags) :
    (∀ evs client resp, NewSolanaClient env = (evs, Except.ok client) →
      env.httpDo (depositHttpRequest env client fl) = Except.ok resp →
      resp.statusCode ≠ 200 →
        depositCommand env fl
          = (evs ++ [Event.httpDo (depositHttpRequest env client fl)],
             Except.error (GoError.msg ("unexpected status code: " ++ toString resp.statusCode)))
        ∧ (∀ i, Event.decodeB64 i ∉ (depositCommand env fl).1)
        ∧ (∀ i, Event.sign i ∉ (depositCommand env fl).1)
        ∧ (∀ tx opts, Event.rpcSendTransaction tx opts ∉ (depositCommand env fl).1))
    ∧ (∀ evs client resp, withdrawPreRunE wfl = Except.ok () →
        NewSolanaClient env = (evs, Except.ok client) →
        env.httpDo (withdrawHttpRequest env client wfl) = Except.ok resp →
        resp.statusCode ≠ 200 →
          withdrawCommand env wfl
            = (evs ++ [Event.httpDo (withdrawHttpRequest env client wfl)],
               Except.error (GoError.msg ("unexpected status code: "
                 ++ toString resp.statusCode))))
    ∧ (∀ resp, (∀ r, env.httpDo r = Except.ok resp) → resp.statusCode = 200 →
        (∀ s, (depositCommand env fl).2
          ≠ Except.error (GoError.msg ("unexpected status code: " ++ s)))
        ∧ (withdrawPreRunE wfl = Except.ok () →
          ∀ s, (withdrawCommand env wfl).2
            ≠ Except.error (GoError.msg ("unexpected status code: " ++ s)))) := by
  refine ⟨?_, ?_, ?_⟩
  · intro evs client resp hP hdo hst
    have hevs : ∀ ev ∈ evs, ∃ path, ev = Event.readFile path := by
      intro ev hev
      exact newSolanaClient_events env ev (by rw [hP]; exact hev)
    have heq : depositCommand env fl
        = (evs ++ [Event.httpDo (depositHttpRequest env client fl)],
           Except.error (GoError.msg ("unexpected status code: " ++ toString resp.statusCode)))
        := by
      simp [depositCommand, hP, hdo, hst]
    have htr : (depositCommand env fl).1
        = evs ++ [Event.httpDo (depositHttpRequest env client fl)] := by rw [heq]
    rcases no_pipeline_events evs (depositHttpRequest env client fl) hevs with ⟨h1, h2, h3⟩
    refine ⟨heq, ?_, ?_, ?_⟩
    · intro i
      rw [htr]
      exact h1 i
    · intro i
      rw [htr]
      exact h2 i
    · intro tx opts
      rw [htr]
      exact h3 tx opts
  · intro evs client resp hpre hP hdo hst
    simp [withdrawCommand, hpre, withdrawRunE, hP, hdo, hst]
  · intro resp hdoAll h200
    constructor
    · intro s h
      rcases hP : NewSolanaClient env with ⟨evs, r⟩
      cases r with
      | error e => simp [depositCommand, hP] at h
      | ok client =>
        have hdo := hdoAll (depositHttpRequest env client fl)
        cases hdecR : env.decodeDepositResponse resp.body with
        | error e => simp [depositCommand, hP, hdo, h200, hdecR] at h
        | ok response =>
          rcases hH : HandleB64Transactions env client
              (response.data.transactionMeta.map (fun m => m.transaction)) with ⟨hevs2, r2⟩
          cases r2 with
          | error e => simp [depositCommand, hP, hdo, h200, hdecR, hH] at h
          | ok v => simp [depositCommand, hP, hdo, h200, hdecR, hH] at h
    · intro hpre s h
      rcases hP : NewSolanaClient env with ⟨evs, r⟩
      cases r with
      | error e => simp [withdrawCommand, hpre, withdrawRunE, hP] at h
      | ok client =>
        have hdo := hdoAll (withdrawHttpRequest env client wfl)
        cases hdecR : env.decodeWithdrawResponse resp.body with
        | error e => simp [withdrawCommand, hpre, withdrawRunE, hP, hdo, h200, hdecR] at h
        | ok response =>
          rcases hH : HandleB64Transactions env client
              (response.data.transactionMeta.map (fun m => m.transaction)) with ⟨hevs2, r2⟩
          cases r2 with
          | error e =>
            simp [withdrawCommand, hpre, withdrawRunE, hP, hdo, h200, hdecR, hH] at h
          | ok v =>
            simp [withdrawCommand, hpre, withdrawRunE, hP, hdo, h200, hdecR, hH] at h

/-- Witness for C5's amended statement: a 500 response is rejected with the
status error and no signing occurs; a 200 response never yields that error. -/
theorem c5_non_200_rejected_witness :
    (depositCommand env500 flD
      = ([Event.readFile "kp", Event.httpDo (depositHttpRequest env500 clientOK flD)],
         Except.error (GoError.msg "unexpected status code: 500"))
      ∧ (∀ i, Event.decodeB64 i ∉ (depositCommand env500 flD).1)
      ∧ (∀ i, Event.sign i ∉ (depositCommand env500 flD).1)
      ∧ (∀ tx opts, Event.rpcSendTransaction tx opts ∉ (depositCommand env500 flD).1))
    ∧ (∀ s, (depositCommand envOK flD).2
        ≠ Except.error (GoError.msg ("unexpected status code: " ++ s))) :=
  ⟨(c5_non_200_rejected env500 flD flW).1 [Event.readFile "kp"] clientOK
      { statusCode := 500, body := "" } rfl rfl (by decide),
   ((c5_non_200_rejected envOK flD flW).2.2 { statusCode := 200, body := "" }
      (fun r => rfl) rfl).1⟩

/-- C8: every deposit or withdraw request body carries the CLI amount
rendered by the zero-fractional-digit float format, and that rendering never
contains a decimal point, for every input amount. -/
theorem c8_amount_integer_string (env : Env) (fl : DepositFlags) (wfl : WithdrawFlags) :
    (∀ f : GoFloat, '.' ∉ (sprintf_f0 f).data)
    ∧ (∀ req, Event.httpDo req ∈ (depositCommand env fl).1 →
        ∃ o, req.body = some (Body.deposit
          { owner := o, mintAddress := fl.mint, depositAmount := sprintf_f0 fl.amount }))
    ∧ (∀ req, Event.httpDo req ∈ (withdrawCommand env wfl).1 →
        ∃ o, req.body = some (Body.withdraw
          { owner := o, mintAddress := wfl.mint, withdrawAmount := sprintf_f0 wfl.amount,
            withdrawAll := wfl.withdrawAll })) := by
  refine ⟨sprintf_f0_no_dot, ?_, ?_⟩
  · intro req hreq
    rcases depositCommand_httpDo env fl req hreq with ⟨client, _, hr⟩
    exact ⟨env.pubKeyString client.publicKey, by rw [hr]; rfl⟩
  · intro req hreq
    rcases withdrawCommand_httpDo env wfl req hreq with ⟨client, _, hr⟩
    exact ⟨env.pubKeyString client.publicKey, by rw [hr]; rfl⟩

/-- Witness for C8: the concrete deposit request carries the dot-free
rendering of amount 5. -/
theorem c8_amount_integer_string_witness :
    '.' ∉ (sprintf_f0 flD.amount).data
    ∧ (∃ o, (depositHttpRequest envOK clientOK flD).body = some (Body.deposit
        { owner := o, mintAddress := flD.mint, depositAmount := sprintf_f0 flD.amount })) :=
  ⟨(c8_amount_integer_string envOK flD flW).1 flD.amount,
   (c8_amount_integer_string envOK flD flW).2.1 (depositHttpRequest envOK clientOK flD)
     (by exact List.Mem.tail _ (List.Mem.head _))⟩

/-- C6: SendTransaction submits with preflight enabled and finalized
preflight commitment, returns the remote signature on success and wraps the
remote rejection on failure; every blockhash fetch of the envelope pipeline
requests finalized commitment and every submission it makes uses those same
options. -/
theorem c6_rpc_commitment_and_result (env : Env) (c : SolanaClient) (tx : Transaction)
    (txs : List String) :
    (SendTransaction env tx).1
        = [Event.rpcSendTransaction tx
            { skipPreflight := false, preflightCommitment := Commitment.finalized }]
    ∧ (∀ sig, env.sendTransaction tx = Except.ok sig → (SendTransaction env tx).2 = Except.ok sig)
    ∧ (∀ e, env.sendTransaction tx = Except.error e →
        (SendTransaction env tx).2 = Except.error (GoError.wrap "failed to send transaction" e))
    ∧ (∀ cm, Event.rpcGetLatestBlockhash cm ∈ (HandleB64Transactions env c txs).1 →
        cm = Commitment.finalized)
    ∧ (∀ t opts, Event.rpcSendTransaction t opts ∈ (HandleB64Transactions env c txs).1 →
        opts = { skipPreflight := false, preflightCommitment := Commitment.finalized }) := by
  refine ⟨rfl, ?_, ?_, ?_, ?_⟩
  · intro sig h
    simp [SendTransaction, h]
  · intro e h
    simp [SendTransaction, h]
  · intro cm hmem
    rcases handleB64_shape env c txs _ hmem with h | ⟨bh, _, hs⟩
    · simpa using h
    · have := (stepShaped_cases bh _ hs).1
      simp [isBlockhashFetch] at this
  · intro t opts hmem
    rcases handleB64_shape env c txs _ hmem with h | ⟨bh, _, hs⟩
    · exact absurd h (by simp)
    · rcases hs with ⟨i, h1⟩ | ⟨i, h1⟩ | ⟨i, h1⟩ | ⟨t2, h1, _⟩
      · exact absurd h1 (by simp)
      · exact absurd h1 (by simp)
      · exact absurd h1 (by simp)
      · have h2 := h1
        simp at h2
        rw [h2.2]
        rfl

/-- Witness for C6: a successful and a rejected submission at concrete
environments. -/
theorem c6_rpc_commitment_and_result_witness :
    (SendTransaction envOK txOwn).2 = Except.ok 9
    ∧ (SendTransaction envSendFail txOwn).2
        = Except.error (GoError.wrap "failed to send transaction"
            (GoError.msg "insufficient funds")) :=
  ⟨(c6_rpc_commitment_and_result envOK clientOK txOwn []).2.1 9 rfl,
   (c6_rpc_commitment_and_result envSendFail clientOK txOwn []).2.2.1
     (GoError.msg "insufficient funds") rfl⟩

/-- C7: the signer callback supplies the private key exactly for the
client's own public key; starting from an unsigned transaction, every slot
that SignTransaction fills belongs to the client's own key and every other
required-signer slot is left empty; SignTransaction never returns an error
(so the pipeline always proceeds to submit: whenever an envelope was signed
it was also submitted, regardless of unfilled slots); and when every
required signer is the client, every slot is filled. -/
theorem c7_partial_signing (env : Env) (c : SolanaClient) (tx : Transaction) (bh : Blockhash)
    (i : Nat) (s : String) :
    (∀ k, (clientGetter c k).isSome = true ↔ k = c.publicKey)
    ∧ clientGetter c c.publicKey = some c.privateKey
    ∧ (∀ tx', SignTransaction env c tx = Except.ok tx' →
        (∀ o ∈ tx.signatures, o = none) →
        ∀ (j : Nat) (sig : Sig), tx'.signatures[j]? = some (some sig) →
          tx.message.signerKeys[j]? = some c.publicKey)
    ∧ SignTransaction env c tx
        = Except.ok (Transaction.sdkSign (clientGetter c) env.signWith tx).1
    ∧ (Event.sign i ∈ (handleStep env c bh i s).1 →
        ∃ t, Event.rpcSendTransaction t sendOpts ∈ (handleStep env c bh i s).1)
    ∧ ((∀ k ∈ tx.message.signerKeys, k = c.publicKey) →
        ∀ tx', SignTransaction env c tx = Except.ok tx' →
          tx'.signatures = tx.message.signerKeys.map
            (fun _ => some (env.signWith c.privateKey tx.message))) := by
  refine ⟨clientGetter_isSome c, by simp [clientGetter], ?_, rfl, ?_, ?_⟩
  · intro tx' h1 h2
    exact signTransaction_filled_only_own env c tx tx' h1 h2
  · intro hsig
    rcases handleStep_char env c bh i s with ⟨e, h⟩ | ⟨e, h⟩ | ⟨t, r, h, _⟩
    · rw [h] at hsig
      simp at hsig
    · rw [h] at hsig
      simp at hsig
    · exact ⟨t, by rw [h]; simp⟩
  · intro hown tx' hsign
    exact signTransaction_all_own_filled env c tx tx' hown hsign

/-- Witness for C7: on the concrete single-signer transaction owned by the
client, the filled slot is the client's own, and the signed envelope is
submitted. -/
theorem c7_partial_signing_witness :
    txOwn.message.signerKeys[0]? = some clientOK.publicKey
    ∧ (∃ t, Event.rpcSendTransaction t sendOpts ∈ (handleStep envOK clientOK 7 0 "t").1)
    ∧ ({ signatures := [some 5], message := txOwn.message } : Transaction).signatures
        = txOwn.message.signerKeys.map
            (fun _ => some (envOK.signWith clientOK.privateKey txOwn.message)) :=
  ⟨(c7_partial_signing envOK clientOK txOwn 7 0 "t").2.2.1
      { signatures := [some 5], message := txOwn.message } rfl (by decide) 0 5 rfl,
   (c7_partial_signing envOK clientOK txOwn 7 0 "t").2.2.2.2.1
     (by exact List.Mem.tail _ (List.Mem.tail _ (List.Mem.head _))),
   (c7_partial_signing envOK clientOK txOwn 7 0 "t").2.2.2.2.2 (by decide)
     { signatures := [some 5], message := txOwn.message } rfl⟩

/-- C1: HandleB64Transactions always begins with exactly one finalized
blockhash fetch (also for an empty batch); if the fetch fails, that wrapped
error is returned with no envelope processed; otherwise every submission in
the whole run carries the single fetched blockhash in its overwritten
recent-blockhash field, and the run is exactly one of: all envelopes
processed in input order with success, or the first failing envelope `k`
ends the run — its error is returned, the trace is the concatenation of the
complete traces of envelopes before `k` (each ending in a submission)
followed by envelope `k`'s partial trace, and no later envelope is decoded,
signed or submitted.  A successfully processed envelope's trace is exactly
decode, deserialize, sign, submit. -/
theorem c1_batch_pipeline (env : Env) (c : SolanaClient) (txs : List String) :
    ((HandleB64Transactions env c txs).1.head?
        = some (Event.rpcGetLatestBlockhash Commitment.finalized)
      ∧ ((HandleB64Transactions env c txs).1.filter
          (fun ev => isBlockhashFetch ev)).length = 1)
    ∧ (∀ e, env.getLatestBlockhash = Except.error e →
        HandleB64Transactions env c txs
          = ([Event.rpcGetLatestBlockhash Commitment.finalized],
             Except.error (GoError.wrap "failed to get latest blockhash" e)))
    ∧ (∀ bh, env.getLatestBlockhash = Except.ok bh →
        (∀ tx opts, Event.rpcSendTransaction tx opts ∈ (HandleB64Transactions env c txs).1 →
          tx.message.recentBlockhash = bh ∧ opts = sendOpts)
        ∧ (((∀ j, j < txs.length →
              exceptIsOk (handleStep env c bh j (txs.getD j "")).2 = true)
            ∧ HandleB64Transactions env c txs
              = (Event.rpcGetLatestBlockhash Commitment.finalized
                  :: segs (fun j => (handleStep env c bh j (txs.getD j "")).1) txs.length,
                 Except.ok ()))
          ∨ (∃ k, k < txs.length
              ∧ (∀ j, j < k → exceptIsOk (handleStep env c bh j (txs.getD j "")).2 = true)
              ∧ ∃ e, (handleStep env c bh k (txs.getD k "")).2 = Except.error e
                ∧ HandleB64Transactions env c txs
                  = (Event.rpcGetLatestBlockhash Commitment.finalized
                      :: (segs (fun j => (handleStep env c bh j (txs.getD j "")).1) k
                          ++ (handleStep env c bh k (txs.getD k "")).1),
                     Except.error e))))
    ∧ (∀ bh i s sig, (handleStep env c bh i s).2 = Except.ok sig →
        ∃ tx, (handleStep env c bh i s).1
            = [Event.decodeB64 i, Event.deserialize i, Event.sign i,
               Event.rpcSendTransaction tx sendOpts]
          ∧ tx.message.recentBlockhash = bh) := by
  refine ⟨⟨?_, ?_⟩, ?_, ?_, ?_⟩
  · cases h : env.getLatestBlockhash with
    | error e => simp [HandleB64Transactions, h]
    | ok bh => simp [HandleB64Transactions, h]
  · cases h : env.getLatestBlockhash with
    | error e => simp [HandleB64Transactions, h, isBlockhashFetch]
    | ok bh =>
      have hnil := handleLoop_no_fetch env c bh txs 0
      have htrace : (HandleB64Transactions env c txs).1
          = Event.rpcGetLatestBlockhash Commitment.finalized
              :: (handleLoop env c bh 0 txs).1 := by
        simp [HandleB64Transactions, h]
      rw [htrace, List.filter_cons, if_pos (by rfl), hnil]
      rfl
  · intro e he
    simp [HandleB64Transactions, he]
  · intro bh hbh
    constructor
    · intro tx opts hmem
      rcases handleB64_shape env c txs _ hmem with h1 | ⟨bh2, hbh2, hs⟩
      · exact absurd h1 (by simp)
      · have hbheq : bh2 = bh := by
          rw [hbh] at hbh2
          exact (Except.ok.injEq _ _).mp hbh2.symm
        subst hbheq
        rcases hs with ⟨i, h1⟩ | ⟨i, h1⟩ | ⟨i, h1⟩ | ⟨t, h1, hb⟩
        · exact absurd h1 (by simp)
        · exact absurd h1 (by simp)
        · exact absurd h1 (by simp)
        · have h2 := h1
          simp at h2
          exact ⟨by rw [h2.1]; exact hb, h2.2⟩
    · have hchar := handleLoop_char env c bh txs 0
      simp only [Nat.zero_add] at hchar
      have htrace : HandleB64Transactions env c txs
          = (Event.rpcGetLatestBlockhash Commitment.finalized :: (handleLoop env c bh 0 txs).1,
             (handleLoop env c bh 0 txs).2) := by
        simp [HandleB64Transactions, hbh]
      rcases hchar with ⟨hall, heq⟩ | ⟨k, hk, hpre, e, herr, heq⟩
      · left
        refine ⟨hall, ?_⟩
        rw [htrace, heq]
      · right
        refine ⟨k, hk, hpre, e, herr, ?_⟩
        rw [htrace, heq]
  · intro bh i s sig hok
    rcases handleStep_char env c bh i s with ⟨e, h⟩ | ⟨e, h⟩ | ⟨t, r, h, hb⟩
    · rw [h] at hok
      simp at hok
    · rw [h] at hok
      simp at hok
    · exact ⟨t, by rw [h], hb⟩

/-- Witness for C1 at a concrete one-envelope batch that is fully processed:
the submission carries the fetched blockhash, and the successful envelope's
trace is decode, deserialize, sign, submit. -/
theorem c1_batch_pipeline_witness :
    (∀ tx opts,
      Event.rpcSendTransaction tx opts ∈ (HandleB64Transactions envOK clientOK ["t"]).1 →
        tx.message.recentBlockhash = 7 ∧ opts = sendOpts)
    ∧ (∃ tx, (handleStep envOK clientOK 7 0 "t").1
          = [Event.decodeB64 0, Event.deserialize 0, Event.sign 0,
             Event.rpcSendTransaction tx sendOpts]
        ∧ tx.message.recentBlockhash = 7) :=
  ⟨((c1_batch_pipeline envOK clientOK ["t"]).2.2.1 7 rfl).1,
   (c1_batch_pipeline envOK clientOK ["t"]).2.2.2 7 0 "t" 9 rfl⟩
